import Mathlib

/-!
Verification development for the sqlite_protobuf extension and its
proto_table companion library.

The definitions below are a shallow embedding of the C/C++ sources:

* `protobuf_extract`, `extract_loop`, `extract_field`,
  `handle_special_enum_path`, `matchPathElement`, `matchIndex` embed
  `src/protobuf_extract.cpp` (the path extractor and its path
  mini-language regex `^\.([^\.\[]+)(?:\[(-?[0-9]+)\])?`).
* `index_expr`, `index_name_string`, `create_index_name` embed the
  index-expression construction and index naming of `create_index` in
  the proto_table C source.  The keyed umash fingerprint is external
  library code and is modelled as a function parameter producing a
  pair of 64-bit words (`UmashFp`), exactly the shape of
  `struct umash_fp`.
* `proto_db_transaction_begin`, `proto_db_transaction_end`,
  `proto_db_batch_begin`, `proto_db_batch_end`,
  `proto_db_count_writes` embed the transaction batcher.
* `get_prototype`, `parse_message` embed the per-thread
  prototype/message cache of `src/utilities.cpp` (the generation
  counter variant whose `parse_message` sits at lines 136-176).

Protobuf reflection, the wire-format parser/serializer, and the sqlite
engine are external collaborators; they are modelled as explicit
function parameters (`parse`, `serialize`, registry lookup, and the
success/failure outcome of `sqlite3_exec`), while everything the
repository's own code computes is translated directly.
Machine integers are modelled as `Nat`/`Int`; `uint32_t`/`size_t`
overflow is made explicit with `% 2 ^ 32` / `% 2 ^ 64` where the C
code can overflow.
-/

/-- Wire types of protobuf fields (`google::protobuf::FieldDescriptor::Type`). -/
inductive PbType : Type where
  | tDouble | tFloat | tInt64 | tUint64 | tInt32 | tFixed64 | tFixed32 | tBool
  | tString | tGroup | tMessage | tBytes | tUint32 | tEnum | tSfixed32 | tSfixed64
  | tSint32 | tSint64
deriving DecidableEq, Repr

/-- C++ storage types of protobuf fields (`FieldDescriptor::CppType`). -/
inductive CppType : Type where
  | cInt32 | cInt64 | cUint32 | cUint64 | cDouble | cFloat | cBool | cEnum
  | cString | cMessage
deriving DecidableEq, Repr

/-- The fixed map from wire type to C++ storage type used by
`FieldDescriptor::cpp_type()`. -/
def cppType : PbType → CppType
  | .tDouble => .cDouble
  | .tFloat => .cFloat
  | .tInt64 => .cInt64
  | .tUint64 => .cUint64
  | .tInt32 => .cInt32
  | .tFixed64 => .cUint64
  | .tFixed32 => .cUint32
  | .tBool => .cBool
  | .tString => .cString
  | .tGroup => .cMessage
  | .tMessage => .cMessage
  | .tBytes => .cString
  | .tUint32 => .cUint32
  | .tEnum => .cEnum
  | .tSfixed32 => .cInt32
  | .tSfixed64 => .cInt64
  | .tSint32 => .cInt32
  | .tSint64 => .cInt64

/-- Field labels (`FieldDescriptor::Label`). -/
inductive PbLabel : Type where
  | optionalL | requiredL | repeatedL
deriving DecidableEq, Repr

/-- One value of an enum type (`google::protobuf::EnumValueDescriptor`). -/
structure EnumValueDescriptor : Type where
  name : String
  number : Int
deriving DecidableEq, Repr

/-- An enum type (`google::protobuf::EnumDescriptor`). -/
structure EnumDescriptor : Type where
  values : List EnumValueDescriptor
deriving DecidableEq, Repr

/-- Model of `EnumDescriptor::FindValueByNumber`. -/
def findValueByNumber (ed : EnumDescriptor) (n : Int) : Option EnumValueDescriptor :=
  ed.values.find? (fun v => v.number == n)

mutual
/-- A protobuf field descriptor: name, wire type, label, the typed
default-value accessors (one per storage-kind group), the enum type
with the default enum value's number, and the message type of
message-kind fields (used by reflection for absent submessages). -/
inductive FieldDesc : Type where
  | mk (name : String) (ftype : PbType) (label : PbLabel)
      (default_value_int : Int) (default_value_real : Rat)
      (default_value_bool : Bool) (default_value_string : String)
      (enum_type : EnumDescriptor) (default_value_enum_number : Int)
      (message_type : MsgDesc) : FieldDesc
/-- A message type descriptor (`google::protobuf::Descriptor`). -/
inductive MsgDesc : Type where
  | mk (fields : List FieldDesc) : MsgDesc
end

def FieldDesc.name : FieldDesc → String
  | .mk n _ _ _ _ _ _ _ _ _ => n

def FieldDesc.ftype : FieldDesc → PbType
  | .mk _ t _ _ _ _ _ _ _ _ => t

def FieldDesc.label : FieldDesc → PbLabel
  | .mk _ _ l _ _ _ _ _ _ _ => l

def FieldDesc.default_value_int : FieldDesc → Int
  | .mk _ _ _ d _ _ _ _ _ _ => d

def FieldDesc.default_value_real : FieldDesc → Rat
  | .mk _ _ _ _ d _ _ _ _ _ => d

def FieldDesc.default_value_bool : FieldDesc → Bool
  | .mk _ _ _ _ _ d _ _ _ _ => d

def FieldDesc.default_value_string : FieldDesc → String
  | .mk _ _ _ _ _ _ d _ _ _ => d

def FieldDesc.enum_type : FieldDesc → EnumDescriptor
  | .mk _ _ _ _ _ _ _ e _ _ => e

def FieldDesc.default_value_enum_number : FieldDesc → Int
  | .mk _ _ _ _ _ _ _ _ n _ => n

def FieldDesc.message_type : FieldDesc → MsgDesc
  | .mk _ _ _ _ _ _ _ _ _ m => m

def MsgDesc.fields : MsgDesc → List FieldDesc
  | .mk fs => fs

/-- Model of `Descriptor::FindFieldByName`. -/
def findFieldByName (d : MsgDesc) (nm : String) : Option FieldDesc :=
  d.fields.find? (fun f => f.name == nm)

mutual
/-- A runtime-typed protobuf field value. -/
inductive PbValue : Type where
  | vInt (i : Int) : PbValue
  | vReal (r : Rat) : PbValue
  | vBool (b : Bool) : PbValue
  | vString (s : String) : PbValue
  | vEnum (n : Int) : PbValue
  | vMsg (m : PbMessage) : PbValue
/-- One populated field of a message: either a set singular value or
the value list of a repeated field. -/
inductive FieldEntry : Type where
  | single (name : String) (v : PbValue) : FieldEntry
  | repeatedField (name : String) (vs : List PbValue) : FieldEntry
/-- A reflected message instance: its descriptor and its populated
fields. -/
inductive PbMessage : Type where
  | mk (desc : MsgDesc) (fields : List FieldEntry) : PbMessage
end

def FieldEntry.fieldName : FieldEntry → String
  | .single n _ => n
  | .repeatedField n _ => n

def PbMessage.descriptor : PbMessage → MsgDesc
  | .mk d _ => d

def PbMessage.entries : PbMessage → List FieldEntry
  | .mk _ fs => fs

/-- Look up a populated field of a message by field name. -/
def lookupEntry (m : PbMessage) (nm : String) : Option FieldEntry :=
  m.entries.find? (fun e => e.fieldName == nm)

/-- Model of `Reflection::HasField` (singular fields only). -/
def hasField (m : PbMessage) (f : FieldDesc) : Bool :=
  match lookupEntry m f.name with
  | some (.single _ _) => true
  | _ => false

/-- Model of `Reflection::FieldSize`.  The C++ API returns `int`: a
representable repeated field never holds more than `INT_MAX`
elements, so the reported size is capped at `2 ^ 31 - 1` (the cap is
invisible on any state a C++ `Message` can reach). -/
def fieldSize (m : PbMessage) (f : FieldDesc) : Nat :=
  match lookupEntry m f.name with
  | some (.repeatedField _ vs) => min vs.length (2 ^ 31 - 1)
  | _ => 0

theorem fieldSize_lt (m : PbMessage) (f : FieldDesc) : fieldSize m f < 2 ^ 31 := by
  unfold fieldSize
  split
  · rename_i n vs heq
    have : min vs.length (2 ^ 31 - 1) ≤ 2 ^ 31 - 1 := Nat.min_le_right _ _
    omega
  · norm_num

/-- Model of the singular integer getters `Reflection::GetInt32` /
`GetInt64` / `GetUInt32` / `GetUInt64` (absent fields yield the
field's default, as protobuf reflection does). -/
def getIntVal (m : PbMessage) (f : FieldDesc) : Int :=
  match lookupEntry m f.name with
  | some (.single _ (.vInt i)) => i
  | _ => f.default_value_int

/-- Model of `Reflection::GetRepeatedInt32` and friends. -/
def getRepeatedIntVal (m : PbMessage) (f : FieldDesc) (i : Nat) : Int :=
  match lookupEntry m f.name with
  | some (.repeatedField _ vs) =>
    match vs[i]? with
    | some (.vInt v) => v
    | _ => f.default_value_int
  | _ => f.default_value_int

/-- Model of `Reflection::GetDouble` / `GetFloat`. -/
def getRealVal (m : PbMessage) (f : FieldDesc) : Rat :=
  match lookupEntry m f.name with
  | some (.single _ (.vReal r)) => r
  | _ => f.default_value_real

/-- Model of `Reflection::GetRepeatedDouble` / `GetRepeatedFloat`. -/
def getRepeatedRealVal (m : PbMessage) (f : FieldDesc) (i : Nat) : Rat :=
  match lookupEntry m f.name with
  | some (.repeatedField _ vs) =>
    match vs[i]? with
    | some (.vReal v) => v
    | _ => f.default_value_real
  | _ => f.default_value_real

/-- Model of `Reflection::GetBool`. -/
def getBoolVal (m : PbMessage) (f : FieldDesc) : Bool :=
  match lookupEntry m f.name with
  | some (.single _ (.vBool b)) => b
  | _ => f.default_value_bool

/-- Model of `Reflection::GetRepeatedBool`. -/
def getRepeatedBoolVal (m : PbMessage) (f : FieldDesc) (i : Nat) : Bool :=
  match lookupEntry m f.name with
  | some (.repeatedField _ vs) =>
    match vs[i]? with
    | some (.vBool b) => b
    | _ => f.default_value_bool
  | _ => f.default_value_bool

/-- Model of `Reflection::GetString`. -/
def getStringVal (m : PbMessage) (f : FieldDesc) : String :=
  match lookupEntry m f.name with
  | some (.single _ (.vString s)) => s
  | _ => f.default_value_string

/-- Model of `Reflection::GetRepeatedString`. -/
def getRepeatedStringVal (m : PbMessage) (f : FieldDesc) (i : Nat) : String :=
  match lookupEntry m f.name with
  | some (.repeatedField _ vs) =>
    match vs[i]? with
    | some (.vString s) => s
    | _ => f.default_value_string
  | _ => f.default_value_string

/-- Model of `Reflection::GetEnumValue`. -/
def getEnumVal (m : PbMessage) (f : FieldDesc) : Int :=
  match lookupEntry m f.name with
  | some (.single _ (.vEnum n)) => n
  | _ => f.default_value_enum_number

/-- Model of `Reflection::GetRepeatedEnumValue`. -/
def getRepeatedEnumVal (m : PbMessage) (f : FieldDesc) (i : Nat) : Int :=
  match lookupEntry m f.name with
  | some (.repeatedField _ vs) =>
    match vs[i]? with
    | some (.vEnum n) => n
    | _ => f.default_value_enum_number
  | _ => f.default_value_enum_number

/-- Model of `Reflection::GetMessage`: an absent singular message
field yields the default (empty) instance of the field's message
type. -/
def getMsgVal (m : PbMessage) (f : FieldDesc) : PbMessage :=
  match lookupEntry m f.name with
  | some (.single _ (.vMsg sub)) => sub
  | _ => PbMessage.mk f.message_type []

/-- Model of `Reflection::GetRepeatedMessage` (the extractor only
calls it with an index it has already bounds-checked). -/
def getRepeatedMsgVal (m : PbMessage) (f : FieldDesc) (i : Nat) : PbMessage :=
  match lookupEntry m f.name with
  | some (.repeatedField _ vs) =>
    match vs[i]? with
    | some (.vMsg sub) => sub
    | _ => PbMessage.mk f.message_type []
  | _ => PbMessage.mk f.message_type []

/-- An SQL value, as bound for the optional 4th (default) argument. -/
inductive SqlValue : Type where
  | sInt (i : Int) | sReal (r : Rat) | sText (s : String)
  | sBlob (b : List Nat) | sNull
deriving DecidableEq, Repr

/-- The single SQL result every extension function emits, one
constructor per `sqlite3_result_*` channel used by the sources.
`rCrash` is not a result: it models an uncaught C++ exception
escaping the extension function (nothing in the sources catches, so
the process is terminated and no SQL result is ever emitted). -/
inductive SqlResult : Type where
  | rInt (i : Int)
  | rReal (r : Rat)
  | rText (s : String)
  | rBlob (b : List Nat)
  | rNull
  | rValue (v : SqlValue)
  | rError (msg : String)
  | rCrash
deriving DecidableEq, Repr

/-- Bytes of a string value, for `sqlite3_result_blob` on `bytes`
fields. -/
def strBytes (s : String) : List Nat :=
  s.data.map Char.toNat

/-- Characters allowed in a path field name: the regex class
`[^.\[]`. -/
def isNameChar (c : Char) : Bool :=
  !(c == '.') && !(c == '[')

/-- Numeric value of the digit run matched by `-?[0-9]+` (the
`field_index_str` capture).  `std::stoi`'s int-range limit — beyond
which it throws instead of producing a value — is modelled where the
source calls it, in `extract_step`. -/
def digitsVal (ds : List Char) : Nat :=
  ds.foldl (fun a c => 10 * a + (c.toNat - 48)) 0

/-- Shared body of the optional index group `\[(-?[0-9]+)\]`: after
the opening bracket (and optional minus sign), greedily take digits
and require an immediate closing bracket. -/
def matchIndexBody (neg : Bool) (rest1 : List Char) : Option (Int × List Char) :=
  if (rest1.takeWhile Char.isDigit).isEmpty then none
  else
    match rest1.dropWhile Char.isDigit with
    | ']' :: rest3 =>
      some (if neg then -(digitsVal (rest1.takeWhile Char.isDigit) : Int)
            else (digitsVal (rest1.takeWhile Char.isDigit) : Int), rest3)
    | _ => none

/-- Attempt to match the optional index group `\[(-?[0-9]+)\]` at the
front of the remaining path. -/
def matchIndex : List Char → Option (Int × List Char)
  | '[' :: '-' :: rest1 => matchIndexBody true rest1
  | '[' :: rest0 => matchIndexBody false rest0
  | _ => none

/-- One anchored application of the path-element regex
`^\.([^\.\[]+)(?:\[(-?[0-9]+)\])?`: the matched field name, the
matched index (if the optional group matched), and the unconsumed
suffix of the path. `none` is a regex mismatch, which the extractor
reports as an invalid path. -/
def matchPathElement : List Char → Option (String × Option Int × List Char)
  | '.' :: rest =>
    if (rest.takeWhile isNameChar).isEmpty then none
    else
      match matchIndex (rest.dropWhile isNameChar) with
      | some (i, rest2) => some (String.mk (rest.takeWhile isNameChar), some i, rest2)
      | none => some (String.mk (rest.takeWhile isNameChar), none, rest.dropWhile isNameChar)
  | _ => none

theorem length_dropWhile_le (p : Char → Bool) (l : List Char) :
    (l.dropWhile p).length ≤ l.length := by
  induction l with
  | nil => simp [List.dropWhile]
  | cons c rest ih =>
    by_cases h : p c
    · simp only [List.dropWhile, h]
      simp only [List.length_cons]
      omega
    · simp [List.dropWhile, h]

theorem matchIndexBody_length_le (neg : Bool) (l : List Char) (i : Int) (r : List Char)
    (h : matchIndexBody neg l = some (i, r)) : r.length ≤ l.length := by
  unfold matchIndexBody at h
  split at h
  · exact absurd h (by simp)
  · have hdw : (l.dropWhile Char.isDigit).length ≤ l.length :=
      length_dropWhile_le Char.isDigit l
    split at h
    · rename_i rest3 heq
      simp only [Option.some.injEq, Prod.mk.injEq] at h
      obtain ⟨-, rfl⟩ := h
      rw [heq] at hdw
      simp only [List.length_cons] at hdw
      omega
    · exact absurd h (by simp)

theorem matchIndex_length_le (l : List Char) (i : Int) (r : List Char)
    (h : matchIndex l = some (i, r)) : r.length ≤ l.length := by
  unfold matchIndex at h
  split at h
  · rename_i rest1
    have := matchIndexBody_length_le true rest1 i r h
    simp only [List.length_cons]
    omega
  · rename_i rest0 _
    have := matchIndexBody_length_le false rest0 i r h
    simp only [List.length_cons]
    omega
  · exact absurd h (by simp)

theorem matchPathElement_length_lt (l : List Char) (nm : String) (oi : Option Int)
    (r : List Char) (h : matchPathElement l = some (nm, oi, r)) :
    r.length < l.length := by
  unfold matchPathElement at h
  split at h
  · rename_i rest
    have hdw : (rest.dropWhile isNameChar).length ≤ rest.length :=
      length_dropWhile_le isNameChar rest
    split at h
    · exact absurd h (by simp)
    · split at h
      · rename_i i rest2 heq
        have hle := matchIndex_length_le _ i rest2 heq
        simp only [Option.some.injEq, Prod.mk.injEq] at h
        obtain ⟨-, -, rfl⟩ := h
        simp only [List.length_cons]
        omega
      · simp only [Option.some.injEq, Prod.mk.injEq] at h
        obtain ⟨-, -, rfl⟩ := h
        simp only [List.length_cons]
        omega
  · exact absurd h (by simp)

/-- Suffix characters of the special enum path `.number`. -/
def dotNumberChars : List Char := ['.', 'n', 'u', 'm', 'b', 'e', 'r']

/-- Suffix characters of the special enum path `.name`. -/
def dotNameChars : List Char := ['.', 'n', 'a', 'm', 'e']

/-- Embedding of `handle_special_enum_path` (protobuf_extract.cpp
lines 27-61): `rest` is the remainder of the path after the enum
field's element, exactly `path.substr(it)` in the C++. -/
def handle_special_enum_path (enum_descriptor : EnumDescriptor) (value : Int)
    (rest : List Char) : SqlResult :=
  if rest = [] ∨ rest = dotNumberChars then
    SqlResult.rInt value
  else if rest = dotNameChars then
    match findValueByNumber enum_descriptor value with
    | none => SqlResult.rError "Enum value not found"
    | some value_descriptor => SqlResult.rText value_descriptor.name
  else
    SqlResult.rError "Path traverses non-message elements"

/-- Embedding of protobuf_extract.cpp lines 173-229: the typed
emission of a protobuf-declared default value for an unpopulated
optional field (reached when the user supplied no default
argument). -/
def emit_default_value (field : FieldDesc) (rest2 : List Char) : SqlResult :=
  match cppType field.ftype with
  | CppType.cInt32 => SqlResult.rInt field.default_value_int
  | CppType.cInt64 => SqlResult.rInt field.default_value_int
  | CppType.cUint32 => SqlResult.rInt field.default_value_int
  | CppType.cUint64 => SqlResult.rInt field.default_value_int
  | CppType.cDouble => SqlResult.rReal field.default_value_real
  | CppType.cFloat => SqlResult.rReal field.default_value_real
  | CppType.cBool => SqlResult.rInt (if field.default_value_bool then 0 else 1)
  | CppType.cEnum =>
    handle_special_enum_path field.enum_type field.default_value_enum_number rest2
  | CppType.cString =>
    if field.ftype = PbType.tBytes then SqlResult.rBlob (strBytes field.default_value_string)
    else SqlResult.rText field.default_value_string
  | CppType.cMessage => SqlResult.rNull

/-- Embedding of protobuf_extract.cpp lines 269-373 for non-message
storage kinds: the trailing-path check (which exempts enums) and the
translation of the field value into a SQL result.  `idx` is the
already validated repeated index (0 for non-repeated fields). -/
def emit_terminal_value (msg : PbMessage) (field : FieldDesc) (is_repeated : Bool)
    (idx : Nat) (rest2 : List Char) : SqlResult :=
  match cppType field.ftype with
  | CppType.cEnum =>
    -- the `it != path.cend()` check at line 270 skips TYPE_ENUM;
    -- lines 339-347
    handle_special_enum_path field.enum_type
      (if is_repeated then getRepeatedEnumVal msg field idx else getEnumVal msg field) rest2
  | CppType.cInt32 =>
    if rest2 ≠ [] then SqlResult.rError "Path traverses non-message elements"
    else SqlResult.rInt (if is_repeated then getRepeatedIntVal msg field idx else getIntVal msg field)
  | CppType.cInt64 =>
    if rest2 ≠ [] then SqlResult.rError "Path traverses non-message elements"
    else SqlResult.rInt (if is_repeated then getRepeatedIntVal msg field idx else getIntVal msg field)
  | CppType.cUint32 =>
    if rest2 ≠ [] then SqlResult.rError "Path traverses non-message elements"
    else SqlResult.rInt (if is_repeated then getRepeatedIntVal msg field idx else getIntVal msg field)
  | CppType.cUint64 =>
    if rest2 ≠ [] then SqlResult.rError "Path traverses non-message elements"
    else SqlResult.rInt (if is_repeated then getRepeatedIntVal msg field idx else getIntVal msg field)
  | CppType.cDouble =>
    if rest2 ≠ [] then SqlResult.rError "Path traverses non-message elements"
    else SqlResult.rReal (if is_repeated then getRepeatedRealVal msg field idx else getRealVal msg field)
  | CppType.cFloat =>
    if rest2 ≠ [] then SqlResult.rError "Path traverses non-message elements"
    else SqlResult.rReal (if is_repeated then getRepeatedRealVal msg field idx else getRealVal msg field)
  | CppType.cBool =>
    if rest2 ≠ [] then SqlResult.rError "Path traverses non-message elements"
    else SqlResult.rInt
      (if (if is_repeated then getRepeatedBoolVal msg field idx else getBoolVal msg field)
       then 0 else 1)
  | CppType.cString =>
    if rest2 ≠ [] then SqlResult.rError "Path traverses non-message elements"
    else if field.ftype = PbType.tBytes then
      SqlResult.rBlob (strBytes
        (if is_repeated then getRepeatedStringVal msg field idx else getStringVal msg field))
    else
      SqlResult.rText
        (if is_repeated then getRepeatedStringVal msg field idx else getStringVal msg field)
  | CppType.cMessage =>
    -- unreachable: `extract_field` descends into submessages instead
    SqlResult.rNull

mutual
/-- Embedding of protobuf_extract.cpp lines 258-384: one loop
iteration after repeated-index validation, with the already validated
`field_index` in `idx` (0 for non-repeated fields).  Message fields
descend into the submessage and continue the loop; all other kinds
emit a terminal value. -/
def extract_field (serialize : PbMessage → Option (List Nat)) (msg : PbMessage)
    (field : FieldDesc) (is_repeated : Bool) (idx : Nat) (rest2 : List Char)
    (dflt : Option SqlValue) : SqlResult :=
  if cppType field.ftype = CppType.cMessage then
    -- lines 259-267: descend into the submessage and continue
    extract_loop serialize
      (if is_repeated then getRepeatedMsgVal msg field idx else getMsgVal msg field).descriptor
      (if is_repeated then getRepeatedMsgVal msg field idx else getMsgVal msg field)
      rest2 dflt
  else
    emit_terminal_value msg field is_repeated idx rest2
termination_by 3 * rest2.length + 1
decreasing_by
  all_goals simp_wf

/-- Embedding of protobuf_extract.cpp lines 152-256 plus the dispatch
into `extract_field`: everything one loop iteration does after the
field-name lookup succeeded.  `fidx` is the optional matched index of
this path element, `rest2` the path remainder after it. -/
def extract_step (serialize : PbMessage → Option (List Nat)) (msg : PbMessage)
    (field : FieldDesc) (fidx : Option Int) (rest2 : List Char)
    (dflt : Option SqlValue) : SqlResult :=
  -- lines 152-230: unpopulated optional field
  if field.label = PbLabel.optionalL ∧ hasField msg field = false then
    if rest2 ≠ [] ∧ field.ftype ≠ PbType.tEnum ∧ field.ftype ≠ PbType.tMessage then
      SqlResult.rError "Invalid path"
    else
      match dflt with
      | some v => SqlResult.rValue v
      | none => emit_default_value field rest2
  else
    -- lines 232-256: repeated-field index validation
    if field.label = PbLabel.repeatedL then
      match fidx with
      | none => SqlResult.rError "Expected index into repeated field"
      | some i =>
        -- line 244: `field_index = std::stoi(field_index_str)` into an
        -- `int`; a matched value beyond int range makes `std::stoi`
        -- throw `std::out_of_range`, which nothing catches
        if i < -(2 ^ 31 : Int) ∨ (2 ^ 31 - 1 : Int) < i then
          SqlResult.rCrash
        else if (if i < 0 then (fieldSize msg field : Int) + i else i) < 0 ∨
            (if i < 0 then (fieldSize msg field : Int) + i else i) ≥ (fieldSize msg field : Int) then
          SqlResult.rNull
        else
          extract_field serialize msg field true
            (if i < 0 then (fieldSize msg field : Int) + i else i).toNat rest2 dflt
    else
      extract_field serialize msg field false 0 rest2 dflt
termination_by 3 * rest2.length + 2
decreasing_by
  all_goals simp_wf

/-- Embedding of the traversal loop of `protobuf_extract`
(protobuf_extract.cpp lines 131-385): `desc` is the current
descriptor, `msg` the current message, `rest` the unconsumed path
after `$`. -/
def extract_loop (serialize : PbMessage → Option (List Nat)) (desc : MsgDesc)
    (msg : PbMessage) (rest : List Char) (dflt : Option SqlValue) : SqlResult :=
  if rest.isEmpty then
    -- lines 376-384: the path ended on a message; re-serialize it
    match serialize msg with
    | none => SqlResult.rError "Could not serialize message"
    | some serialized => SqlResult.rBlob serialized
  else
    match hm : matchPathElement rest with
    | none => SqlResult.rError "Invalid path"
    | some (field_name, fidx, rest2) =>
      match findFieldByName desc field_name with
      | none => SqlResult.rError "Invalid field name"
      | some field => extract_step serialize msg field fidx rest2 dflt
termination_by 3 * rest.length
decreasing_by
  simp_wf
  have := matchPathElement_length_lt _ _ _ _ hm
  omega
end

/-- A message prototype as produced by the generated descriptor pool
and message factory: its descriptor and the semantics of
`prototype->New()` followed by `ParseFromString` (external protobuf
library code, modelled as a function). -/
structure Prototype : Type where
  descriptor : MsgDesc
  parse : List Nat → Option PbMessage

/-- The external collaborators of `protobuf_extract`: the prototype
registry consulted by `get_prototype(message_name)` and the
`Message::SerializeToString` semantics. -/
structure ProtoLib : Type where
  get_prototype : String → Option Prototype
  serialize : PbMessage → Option (List Nat)

/-- Embedding of the `protobuf_extract` SQL scalar function
(protobuf_extract.cpp lines 72-385) for the well-formed arities:
`dflt = none` models a 3-argument call, `dflt = some v` a 4-argument
call whose 4th sqlite value is `v`. -/
def protobuf_extract (lib : ProtoLib) (message_data : List Nat) (message_name : String)
    (path : String) (dflt : Option SqlValue) : SqlResult :=
  if path.data.head? ≠ some '$' then SqlResult.rError "Invalid path"
  else
    match lib.get_prototype message_name with
    | none => SqlResult.rError "Could not find message descriptor"
    | some prototype =>
      match prototype.parse message_data with
      | none => SqlResult.rError "Failed to parse message"
      | some root_message =>
        if path.data = ['$'] then SqlResult.rBlob message_data
        else
          extract_loop lib.serialize prototype.descriptor root_message
            (path.data.drop 1) dflt


theorem matchPathElement_ne_nil {l : List Char} {x : String × Option Int × List Char}
    (h : matchPathElement l = some x) : l.isEmpty = false := by
  cases l with
  | nil => simp [matchPathElement] at h
  | cons c rest => simp [List.isEmpty]

theorem extract_loop_cons (serialize : PbMessage → Option (List Nat)) (desc : MsgDesc)
    (msg : PbMessage) (rest : List Char) (dflt : Option SqlValue)
    (field_name : String) (fidx : Option Int) (rest2 : List Char) (field : FieldDesc)
    (hm : matchPathElement rest = some (field_name, fidx, rest2))
    (hf : findFieldByName desc field_name = some field) :
    extract_loop serialize desc msg rest dflt =
      extract_step serialize msg field fidx rest2 dflt := by
  have hne : rest.isEmpty = false := matchPathElement_ne_nil hm
  rw [extract_loop]
  rw [hne]
  simp only [Bool.false_eq_true, if_false]
  split
  · rename_i heq
    rw [hm] at heq
    exact absurd heq (by simp)
  · rename_i fn fx r2 heq
    rw [hm] at heq
    simp only [Option.some.injEq, Prod.mk.injEq] at heq
    obtain ⟨h1, h2, h3⟩ := heq
    subst h1; subst h2; subst h3
    rw [hf]

/-- The effective index `i' = i < 0 ? size + i : i` computed from a
signed index `i` into a repeated field of `size` elements. -/
def effectiveIndex (size : Nat) (i : Int) : Int :=
  if i < 0 then (size : Int) + i else i

/-- Fixture message type for concrete witness evaluations: an empty
descriptor. -/
def wEmptyDesc : MsgDesc := MsgDesc.mk []

/-- Fixture enum with values `MOBILE = 0` and `HOME = 1`. -/
def wPhoneEnum : EnumDescriptor := EnumDescriptor.mk [⟨"MOBILE", 0⟩, ⟨"HOME", 1⟩]

/-- Fixture field `number : string`. -/
def wNumberField : FieldDesc :=
  FieldDesc.mk "number" PbType.tString PbLabel.optionalL 0 0 false "" (EnumDescriptor.mk []) 0 wEmptyDesc

/-- Fixture field `type : Phone.Type enum`. -/
def wTypeField : FieldDesc :=
  FieldDesc.mk "type" PbType.tEnum PbLabel.optionalL 0 0 false "" wPhoneEnum 1 wEmptyDesc

/-- Fixture descriptor of a `Phone` message. -/
def wPhoneDesc : MsgDesc := MsgDesc.mk [wNumberField, wTypeField]

/-- Fixture field `name : string`. -/
def wNameField : FieldDesc :=
  FieldDesc.mk "name" PbType.tString PbLabel.optionalL 0 0 false "" (EnumDescriptor.mk []) 0 wEmptyDesc

/-- Fixture field `age : int32` with declared default 42. -/
def wAgeField : FieldDesc :=
  FieldDesc.mk "age" PbType.tInt32 PbLabel.optionalL 42 0 false "" (EnumDescriptor.mk []) 0 wEmptyDesc

/-- Fixture field `flag : bool` with declared default true. -/
def wFlagField : FieldDesc :=
  FieldDesc.mk "flag" PbType.tBool PbLabel.optionalL 0 0 true "" (EnumDescriptor.mk []) 0 wEmptyDesc

/-- Fixture field `phones : repeated Phone`. -/
def wPhonesField : FieldDesc :=
  FieldDesc.mk "phones" PbType.tMessage PbLabel.repeatedL 0 0 false "" (EnumDescriptor.mk []) 0 wPhoneDesc

/-- Fixture descriptor of a `Person` message. -/
def wPersonDesc : MsgDesc := MsgDesc.mk [wNameField, wAgeField, wFlagField, wPhonesField]

/-- Fixture `Phone` instance with a number and a type. -/
def wPhone (num : String) (ty : Int) : PbMessage :=
  PbMessage.mk wPhoneDesc
    [FieldEntry.single "number" (PbValue.vString num), FieldEntry.single "type" (PbValue.vEnum ty)]

/-- Fixture `Person` with only the name populated. -/
def wAda : PbMessage := PbMessage.mk wPersonDesc [FieldEntry.single "name" (PbValue.vString "Ada")]

/-- Fixture `Person` with only the bool field populated (to true). -/
def wFlagTrue : PbMessage := PbMessage.mk wPersonDesc [FieldEntry.single "flag" (PbValue.vBool true)]

/-- Fixture `Person` with three phones. -/
def wWithPhones : PbMessage :=
  PbMessage.mk wPersonDesc
    [FieldEntry.repeatedField "phones"
      [PbValue.vMsg (wPhone "5" 0), PbValue.vMsg (wPhone "6" 1), PbValue.vMsg (wPhone "7" 1)]]

/-- Fixture serializer that always fails (no witness serializes). -/
def wNoSer : PbMessage → Option (List Nat) := fun _ => none

/-- Fixture library registry: every name resolves to the `Person`
prototype whose parser always produces `wAda`. -/
def wLib : ProtoLib :=
  { get_prototype := fun _ => some { descriptor := wPersonDesc, parse := fun _ => some wAda }
    serialize := wNoSer }

/-- Step semantics at a path step that addresses a repeated field: a
step without an index fails with `Expected index into repeated
field`; a matched index beyond int range makes the `std::stoi` call
of protobuf_extract.cpp line 244 throw uncaught `std::out_of_range`
(modelled `SqlResult.rCrash`); an in-int-range index `i` is wrapped
to `i' = i < 0 ? size + i : i`, an `i'` outside `[0, size)` yields
SQL NULL, and an in-range `i'` continues the extraction with the
`i'`-th element selected. -/
theorem extract_repeated_index (serialize : PbMessage → Option (List Nat))
    (desc : MsgDesc) (msg : PbMessage) (rest : List Char) (dflt : Option SqlValue)
    (field_name : String) (fidx : Option Int) (rest2 : List Char) (field : FieldDesc)
    (hm : matchPathElement rest = some (field_name, fidx, rest2))
    (hf : findFieldByName desc field_name = some field)
    (hrep : field.label = PbLabel.repeatedL) :
    (fidx = none →
      extract_loop serialize desc msg rest dflt =
        SqlResult.rError "Expected index into repeated field") ∧
    (∀ i : Int, fidx = some i →
      ((i < -(2 ^ 31 : Int) ∨ (2 ^ 31 - 1 : Int) < i) →
        extract_loop serialize desc msg rest dflt = SqlResult.rCrash) ∧
      (-(2 ^ 31 : Int) ≤ i → i ≤ (2 ^ 31 - 1 : Int) →
        ((effectiveIndex (fieldSize msg field) i < 0 ∨
          effectiveIndex (fieldSize msg field) i ≥ (fieldSize msg field : Int)) →
          extract_loop serialize desc msg rest dflt = SqlResult.rNull) ∧
        (0 ≤ effectiveIndex (fieldSize msg field) i →
         effectiveIndex (fieldSize msg field) i < (fieldSize msg field : Int) →
          extract_loop serialize desc msg rest dflt =
            extract_field serialize msg field true
              (effectiveIndex (fieldSize msg field) i).toNat rest2 dflt))) := by
  rw [extract_loop_cons serialize desc msg rest dflt field_name fidx rest2 field hm hf]
  refine ⟨?_, ?_⟩
  · intro hidx
    subst hidx
    unfold extract_step
    simp [hrep]
  · intro i hidx
    subst hidx
    simp only [effectiveIndex]
    refine ⟨?_, ?_⟩
    · intro hcr
      unfold extract_step
      rw [if_neg (by rw [hrep]; rintro ⟨h, -⟩; exact nomatch h)]
      rw [if_pos hrep]
      simp only [hcr, if_true]
    · intro hlo hhi
      have hcr : ¬(i < -(2 ^ 31 : Int) ∨ (2 ^ 31 - 1 : Int) < i) := by omega
      refine ⟨?_, ?_⟩
      · intro hout
        unfold extract_step
        rw [if_neg (by rw [hrep]; rintro ⟨h, -⟩; exact nomatch h)]
        rw [if_pos hrep]
        simp only [hcr, hout, if_false, if_true]
      · intro h0 hlt
        have hnot : ¬((if i < 0 then (fieldSize msg field : Int) + i else i) < 0 ∨
            (if i < 0 then (fieldSize msg field : Int) + i else i) ≥
              (fieldSize msg field : Int)) := by
          omega
        unfold extract_step
        rw [if_neg (by rw [hrep]; rintro ⟨h, -⟩; exact nomatch h)]
        rw [if_pos hrep]
        simp only [hcr, hnot, if_false]

theorem extract_repeated_index_witness :
    extract_loop wNoSer wPersonDesc wWithPhones (String.data ".phones[5].number") none =
      SqlResult.rNull := by
  have h := extract_repeated_index wNoSer wPersonDesc wWithPhones
      (String.data ".phones[5].number") none "phones" (some 5) (String.data ".number")
      wPhonesField (by decide) rfl rfl
  exact ((h.2 5 rfl).2 (by decide) (by decide)).1 (by decide)

/-- C2: evaluation at the failing input: on a three-element repeated
field, the path `$.phones[9999999999].number` carries an index beyond
int range, so the `std::stoi` call of protobuf_extract.cpp line 244
throws uncaught `std::out_of_range` and the call crashes
(`SqlResult.rCrash`) instead of emitting the SQL NULL the claim
prescribes for every index whose effective value is outside
`[0, size)`. -/
theorem extract_repeated_index_crash :
    fieldSize wWithPhones wPhonesField = 3 ∧
    extract_loop wNoSer wPersonDesc wWithPhones
      (String.data ".phones[9999999999].number") none = SqlResult.rCrash ∧
    SqlResult.rCrash ≠ SqlResult.rNull := by
  refine ⟨by decide, ?_, by decide⟩
  have h := extract_repeated_index wNoSer wPersonDesc wWithPhones
      (String.data ".phones[9999999999].number") none "phones" (some 9999999999)
      (String.data ".number") wPhonesField (by decide) rfl rfl
  exact (h.2 9999999999 rfl).1 (by decide)


/-- C1: whenever the path ends at a bool-kind field — populated or
unpopulated-optional with no user default (in which case the declared
default bool is used), singular or repeated at a valid index — the
extractor emits SQL integer 0 when the bool value is true and 1 when
it is false. -/
theorem extract_bool_mapping (serialize : PbMessage → Option (List Nat))
    (desc : MsgDesc) (msg : PbMessage) (rest : List Char) (dflt : Option SqlValue)
    (field_name : String) (fidx : Option Int) (rest2 : List Char) (field : FieldDesc)
    (b : Bool)
    (hm : matchPathElement rest = some (field_name, fidx, rest2))
    (hrest2 : rest2 = [])
    (hf : findFieldByName desc field_name = some field)
    (hty : cppType field.ftype = CppType.cBool)
    (hs : (field.label = PbLabel.optionalL ∧ hasField msg field = false ∧ dflt = none ∧
             b = field.default_value_bool)
        ∨ (field.label ≠ PbLabel.repeatedL ∧
             ¬(field.label = PbLabel.optionalL ∧ hasField msg field = false) ∧
             b = getBoolVal msg field)
        ∨ (∃ i : Int, field.label = PbLabel.repeatedL ∧ fidx = some i ∧
             0 ≤ effectiveIndex (fieldSize msg field) i ∧
             effectiveIndex (fieldSize msg field) i < (fieldSize msg field : Int) ∧
             b = getRepeatedBoolVal msg field (effectiveIndex (fieldSize msg field) i).toNat)) :
    extract_loop serialize desc msg rest dflt = SqlResult.rInt (if b then 0 else 1) := by
  rw [extract_loop_cons serialize desc msg rest dflt field_name fidx rest2 field hm hf]
  subst hrest2
  rcases hs with ⟨hopt, hhas, hdflt, hb⟩ | ⟨hnrep, hnopt, hb⟩ | ⟨i, hrep, hfidx, h0, hlt, hb⟩
  · subst hdflt; subst hb
    unfold extract_step
    rw [if_pos ⟨hopt, hhas⟩]
    simp [emit_default_value, hty]
  · subst hb
    unfold extract_step
    rw [if_neg hnopt]
    rw [if_neg hnrep]
    unfold extract_field
    rw [if_neg (by rw [hty]; exact fun h => nomatch h)]
    simp [emit_terminal_value, hty]
  · subst hfidx; subst hb
    unfold extract_step
    rw [if_neg (by rw [hrep]; rintro ⟨h, -⟩; exact nomatch h)]
    rw [if_pos hrep]
    simp only [effectiveIndex] at h0 hlt
    have hsize := fieldSize_lt msg field
    have hcr : ¬(i < -(2 ^ 31 : Int) ∨ (2 ^ 31 - 1 : Int) < i) := by omega
    have hnot : ¬((if i < 0 then (fieldSize msg field : Int) + i else i) < 0 ∨
        (if i < 0 then (fieldSize msg field : Int) + i else i) ≥ (fieldSize msg field : Int)) := by
      omega
    simp only [hcr, hnot, if_false]
    unfold extract_field
    rw [if_neg (by rw [hty]; exact fun h => nomatch h)]
    simp [emit_terminal_value, hty, effectiveIndex]

theorem extract_bool_mapping_witness :
    extract_loop wNoSer wPersonDesc wFlagTrue (String.data ".flag") none = SqlResult.rInt 0 := by
  have h := extract_bool_mapping wNoSer wPersonDesc wFlagTrue (String.data ".flag") none
      "flag" none [] wFlagField true (by decide) rfl rfl rfl
      (Or.inr (Or.inl ⟨by decide, by decide, rfl⟩))
  exact h

/-- C3: at a path step whose field is declared optional and is
unpopulated: a non-empty remaining path is the error `Invalid path`
unless the field's kind is message or enum; otherwise a supplied 4th
(default) argument is returned verbatim, and with no 4th argument the
field's declared protobuf default is emitted mapped by kind (integer
kinds as SQL integer, real kinds as SQL real, string as text, bytes
as blob, enum through the enum-suffix rule on the default enum value,
absent message as SQL NULL). -/
theorem extract_optional_default (serialize : PbMessage → Option (List Nat))
    (desc : MsgDesc) (msg : PbMessage) (rest : List Char) (dflt : Option SqlValue)
    (field_name : String) (fidx : Option Int) (rest2 : List Char) (field : FieldDesc)
    (hm : matchPathElement rest = some (field_name, fidx, rest2))
    (hf : findFieldByName desc field_name = some field)
    (hopt : field.label = PbLabel.optionalL)
    (hhas : hasField msg field = false) :
    (rest2 ≠ [] → field.ftype ≠ PbType.tEnum → field.ftype ≠ PbType.tMessage →
      extract_loop serialize desc msg rest dflt = SqlResult.rError "Invalid path") ∧
    ((rest2 = [] ∨ field.ftype = PbType.tEnum ∨ field.ftype = PbType.tMessage) →
      (∀ v, dflt = some v →
        extract_loop serialize desc msg rest dflt = SqlResult.rValue v) ∧
      (dflt = none →
        ((cppType field.ftype = CppType.cInt32 ∨ cppType field.ftype = CppType.cInt64 ∨
          cppType field.ftype = CppType.cUint32 ∨ cppType field.ftype = CppType.cUint64) →
          extract_loop serialize desc msg rest dflt = SqlResult.rInt field.default_value_int) ∧
        ((cppType field.ftype = CppType.cDouble ∨ cppType field.ftype = CppType.cFloat) →
          extract_loop serialize desc msg rest dflt = SqlResult.rReal field.default_value_real) ∧
        (field.ftype = PbType.tString →
          extract_loop serialize desc msg rest dflt = SqlResult.rText field.default_value_string) ∧
        (field.ftype = PbType.tBytes →
          extract_loop serialize desc msg rest dflt =
            SqlResult.rBlob (strBytes field.default_value_string)) ∧
        (field.ftype = PbType.tEnum →
          extract_loop serialize desc msg rest dflt =
            handle_special_enum_path field.enum_type field.default_value_enum_number rest2) ∧
        (field.ftype = PbType.tMessage →
          extract_loop serialize desc msg rest dflt = SqlResult.rNull))) := by
  rw [extract_loop_cons serialize desc msg rest dflt field_name fidx rest2 field hm hf]
  unfold extract_step
  rw [if_pos ⟨hopt, hhas⟩]
  constructor
  · intro h1 h2 h3
    rw [if_pos ⟨h1, h2, h3⟩]
  · intro hA
    have hno : ¬(rest2 ≠ [] ∧ field.ftype ≠ PbType.tEnum ∧ field.ftype ≠ PbType.tMessage) := by
      rcases hA with h | h | h <;> simp [h]
    rw [if_neg hno]
    constructor
    · intro v hv
      subst hv
      rfl
    · intro hv
      subst hv
      refine ⟨?_, ?_, ?_, ?_, ?_, ?_⟩
      · rintro (h | h | h | h) <;> simp [emit_default_value, h]
      · rintro (h | h) <;> simp [emit_default_value, h]
      · intro h
        have : cppType field.ftype = CppType.cString := by rw [h]; rfl
        simp [emit_default_value, cppType, this, h]
      · intro h
        have : cppType field.ftype = CppType.cString := by rw [h]; rfl
        simp [emit_default_value, cppType, this, h]
      · intro h
        have : cppType field.ftype = CppType.cEnum := by rw [h]; rfl
        simp [emit_default_value, cppType, this, h]
      · intro h
        have : cppType field.ftype = CppType.cMessage := by rw [h]; rfl
        simp [emit_default_value, cppType, this, h]

theorem extract_optional_default_witness :
    extract_loop wNoSer wPersonDesc wAda (String.data ".age") none = SqlResult.rInt 42 := by
  have h := extract_optional_default wNoSer wPersonDesc wAda (String.data ".age") none
      "age" none [] wAgeField (by decide) rfl rfl rfl
  exact (((h.2 (Or.inl rfl)).2 rfl).1 (Or.inl rfl))

/-- C4: when extraction reaches an enum field value, an empty
remainder or the remainder `.number` emits the numeric value as an
SQL integer; the remainder `.name` emits the value's symbolic name as
SQL text, failing with `Enum value not found` exactly when no enum
value descriptor exists for that number; any other non-empty
remainder fails with `Path traverses non-message elements`. -/
theorem extract_enum_suffix (serialize : PbMessage → Option (List Nat))
    (msg : PbMessage) (field : FieldDesc) (is_repeated : Bool) (idx : Nat)
    (rest2 : List Char) (dflt : Option SqlValue) (value : Int)
    (hty : cppType field.ftype = CppType.cEnum)
    (hv : value = if is_repeated then getRepeatedEnumVal msg field idx else getEnumVal msg field) :
    ((rest2 = [] ∨ rest2 = dotNumberChars) →
      extract_field serialize msg field is_repeated idx rest2 dflt = SqlResult.rInt value) ∧
    (rest2 = dotNameChars →
      (∀ vd, findValueByNumber field.enum_type value = some vd →
        extract_field serialize msg field is_repeated idx rest2 dflt = SqlResult.rText vd.name) ∧
      (findValueByNumber field.enum_type value = none →
        extract_field serialize msg field is_repeated idx rest2 dflt =
          SqlResult.rError "Enum value not found")) ∧
    (rest2 ≠ [] → rest2 ≠ dotNumberChars → rest2 ≠ dotNameChars →
      extract_field serialize msg field is_repeated idx rest2 dflt =
        SqlResult.rError "Path traverses non-message elements") := by
  subst hv
  unfold extract_field
  rw [if_neg (by rw [hty]; exact fun h => nomatch h)]
  have hterm : emit_terminal_value msg field is_repeated idx rest2 =
      handle_special_enum_path field.enum_type
        (if is_repeated then getRepeatedEnumVal msg field idx else getEnumVal msg field) rest2 := by
    unfold emit_terminal_value
    rw [hty]
  rw [hterm]
  refine ⟨?_, ?_, ?_⟩
  · intro h
    unfold handle_special_enum_path
    rw [if_pos h]
  · intro h
    constructor
    · intro vd hvd
      unfold handle_special_enum_path
      rw [if_neg (by simp [h, dotNameChars, dotNumberChars]), if_pos h, hvd]
    · intro hvd
      unfold handle_special_enum_path
      rw [if_neg (by simp [h, dotNameChars, dotNumberChars]), if_pos h, hvd]
  · intro h1 h2 h3
    unfold handle_special_enum_path
    rw [if_neg (by simp [h1, h2]), if_neg h3]

theorem extract_enum_suffix_witness :
    extract_field wNoSer (wPhone "5" 0) wTypeField false 0 dotNameChars none =
      SqlResult.rText "MOBILE" := by
  have h := extract_enum_suffix wNoSer (wPhone "5" 0) wTypeField false 0 dotNameChars none 0
      rfl rfl
  exact (h.2.1 rfl).1 ⟨"MOBILE", 0⟩ rfl

/-- C10: when the path reaches an unpopulated optional enum field
followed by a `.name` or `.number` suffix and a 4th (default)
argument was supplied, that default is returned verbatim — the
enum-suffix rule is not applied to it. -/
theorem extract_default_shadows_enum_suffix (serialize : PbMessage → Option (List Nat))
    (desc : MsgDesc) (msg : PbMessage) (rest : List Char) (dflt : Option SqlValue)
    (field_name : String) (fidx : Option Int) (rest2 : List Char) (field : FieldDesc)
    (v : SqlValue)
    (hm : matchPathElement rest = some (field_name, fidx, rest2))
    (hf : findFieldByName desc field_name = some field)
    (hopt : field.label = PbLabel.optionalL)
    (hhas : hasField msg field = false)
    (hty : field.ftype = PbType.tEnum)
    (hrest2 : rest2 = dotNameChars ∨ rest2 = dotNumberChars)
    (hdflt : dflt = some v) :
    extract_loop serialize desc msg rest dflt = SqlResult.rValue v := by
  rw [extract_loop_cons serialize desc msg rest dflt field_name fidx rest2 field hm hf]
  unfold extract_step
  rw [if_pos ⟨hopt, hhas⟩]
  rw [if_neg (by simp [hty])]
  rw [hdflt]

theorem extract_default_shadows_enum_suffix_witness :
    extract_loop wNoSer wPhoneDesc (PbMessage.mk wPhoneDesc []) (String.data ".type.name")
      (some (SqlValue.sInt 7)) = SqlResult.rValue (SqlValue.sInt 7) := by
  have h := extract_default_shadows_enum_suffix wNoSer wPhoneDesc (PbMessage.mk wPhoneDesc [])
      (String.data ".type.name") (some (SqlValue.sInt 7)) "type" none (String.data ".name")
      wTypeField (SqlValue.sInt 7) (by decide) rfl rfl rfl rfl (Or.inl (by decide)) rfl
  exact h

/-- C5: whenever the message blob parses successfully as the named
message type, extracting with the root path `$` returns the original
input bytes unchanged as an SQL blob. -/
theorem extract_root_identity (lib : ProtoLib) (b : List Nat) (message_name : String)
    (dflt : Option SqlValue) (prototype : Prototype) (m : PbMessage)
    (hp : lib.get_prototype message_name = some prototype)
    (hparse : prototype.parse b = some m) :
    protobuf_extract lib b message_name "$" dflt = SqlResult.rBlob b := by
  simp [protobuf_extract, hp, hparse]

theorem extract_root_identity_witness :
    protobuf_extract wLib [9, 9] "Person" "$" none = SqlResult.rBlob [9, 9] := by
  have h := extract_root_identity wLib [9, 9] "Person" none
      { descriptor := wPersonDesc, parse := fun _ => some wAda } wAda rfl rfl
  exact h

/-- One view column as accumulated by `generate_proto_table`
(`struct view_column`): the column name and its `CAST(...)`
expansion. -/
structure ViewColumn : Type where
  column_name : String
  expression : String
  auto_index : Bool

/-- One requested index (`struct proto_index`): a name suffix and the
NUL-terminated component list. -/
structure ProtoIndex : Type where
  name_suffix : String
  components : List String

/-- Result shape of `umash_fprint` (`struct umash_fp`): two 64-bit
hash words.  The fingerprint itself is external library code, keyed
with `"proto table umash index fp key"`; it enters the model as a
function parameter producing this shape. -/
structure UmashFp : Type where
  hash0 : Fin (2 ^ 64)
  hash1 : Fin (2 ^ 64)
deriving DecidableEq

/-- The component substitution of `create_index` (proto_table.c): a
component equal to some view column's name is replaced by that
column's expression; other components pass through. -/
def substituteComponent (columns : List ViewColumn) (c : String) : String :=
  match columns.find? (fun col => col.column_name == c) with
  | some col => col.expression
  | none => c

/-- The expression-string construction of `create_index`: component
`i` is prefixed by `"\n  "` when `i = 0` and by `",\n  "`
otherwise. -/
def index_expr_parts (columns : List ViewColumn) (first : Bool) : List String → String
  | [] => ""
  | c :: cs =>
    (if first then "\n  " else ",\n  ") ++ substituteComponent columns c ++
      index_expr_parts columns false cs

/-- The full index expression string fed to the fingerprint. -/
def index_expr (columns : List ViewColumn) (components : List String) : String :=
  index_expr_parts columns true components

/-- Hex digit characters as printed by `%016` PRIx64 (lowercase). -/
def hexDigitChar : Nat → Char
  | 0 => '0' | 1 => '1' | 2 => '2' | 3 => '3' | 4 => '4'
  | 5 => '5' | 6 => '6' | 7 => '7' | 8 => '8' | 9 => '9'
  | 10 => 'a' | 11 => 'b' | 12 => 'c' | 13 => 'd' | 14 => 'e'
  | 15 => 'f' | _ => '0'

/-- Fixed-width base-16 rendering (most significant digit first),
width `w`. -/
def hexFixed : Nat → Nat → List Char
  | 0, _ => []
  | w + 1, n => hexFixed w (n / 16) ++ [hexDigitChar (n % 16)]

/-- The 16-digit zero-padded lowercase hex rendering `%016` PRIx64
of a 64-bit word. -/
def hex16 (n : Nat) : String := String.mk (hexFixed 16 n)

/-- The index name format string of `create_index`:
`proto_%sindex__%s__%s__%016lx%016lx` with `auto`/empty, table name,
suffix, and the two fingerprint words. -/
def index_name_string (auto : Bool) (table_name name_suffix : String) (fp : UmashFp) : String :=
  "proto_" ++ (if auto then "auto" else "") ++ "index__" ++ table_name ++ "__" ++
    name_suffix ++ "__" ++ hex16 fp.hash0.val ++ hex16 fp.hash1.val

/-- The index name computed by `create_index` for index request `idx`
against view columns `columns`: the format above applied to the keyed
fingerprint (model parameter `fpr`) of the built expression
string. -/
def create_index_name (fpr : String → UmashFp) (table_name : String)
    (columns : List ViewColumn) (idx : ProtoIndex) (auto : Bool) : String :=
  index_name_string auto table_name idx.name_suffix (fpr (index_expr columns idx.components))

/-- Second definition for the refinement comparison of claim C6,
following the claim's words: the fingerprinted string is said to be
the substituted components joined with `",\n  "` (no leading
separator). -/
def index_expr_claimed (columns : List ViewColumn) (components : List String) : String :=
  String.intercalate ",\n  " (components.map (substituteComponent columns))

/-- Inverse of `hexDigitChar` on the 16 hex digits. -/
def unhexDigit : Char → Nat
  | '1' => 1 | '2' => 2 | '3' => 3 | '4' => 4 | '5' => 5
  | '6' => 6 | '7' => 7 | '8' => 8 | '9' => 9 | 'a' => 10
  | 'b' => 11 | 'c' => 12 | 'd' => 13 | 'e' => 14 | 'f' => 15
  | _ => 0

/-- Base-16 decoding of a digit list. -/
def decodeHex (l : List Char) : Nat :=
  l.foldl (fun a c => 16 * a + unhexDigit c) 0

theorem unhex_hexDigitChar (n : Nat) (h : n < 16) : unhexDigit (hexDigitChar n) = n := by
  interval_cases n <;> rfl

theorem decodeHex_append_digit (l : List Char) (c : Char) :
    decodeHex (l ++ [c]) = 16 * decodeHex l + unhexDigit c := by
  unfold decodeHex
  rw [List.foldl_append]
  rfl

theorem decodeHex_hexFixed (w : Nat) : ∀ n : Nat, n < 16 ^ w → decodeHex (hexFixed w n) = n := by
  induction w with
  | zero =>
    intro n hn
    interval_cases n
    rfl
  | succ w ih =>
    intro n hn
    unfold hexFixed
    rw [decodeHex_append_digit]
    have hdiv : n / 16 < 16 ^ w := by
      rw [pow_succ, mul_comm] at hn
      exact Nat.div_lt_of_lt_mul hn
    rw [ih (n / 16) hdiv]
    rw [unhex_hexDigitChar (n % 16) (Nat.mod_lt n (by norm_num))]
    omega

theorem hexFixed_inj (a b : Nat) (ha : a < 16 ^ 16) (hb : b < 16 ^ 16)
    (h : hexFixed 16 a = hexFixed 16 b) : a = b := by
  have := congrArg decodeHex h
  rwa [decodeHex_hexFixed 16 a ha, decodeHex_hexFixed 16 b hb] at this

theorem hexFixed_length (w : Nat) : ∀ n : Nat, (hexFixed w n).length = w := by
  induction w with
  | zero => intro n; rfl
  | succ w ih =>
    intro n
    unfold hexFixed
    rw [List.length_append, ih (n / 16)]
    rfl

theorem pow_16_16_eq : 16 ^ 16 = 2 ^ 64 := by norm_num

theorem index_name_string_fp_inj (auto : Bool) (table_name name_suffix : String)
    (fp1 fp2 : UmashFp) (hne : fp1 ≠ fp2) :
    index_name_string auto table_name name_suffix fp1 ≠
      index_name_string auto table_name name_suffix fp2 := by
  intro heq
  apply hne
  have hdata := congrArg String.data heq
  simp only [index_name_string, String.data_append] at hdata
  have hdata2 : (hex16 fp1.hash0.val).data ++ (hex16 fp1.hash1.val).data =
      (hex16 fp2.hash0.val).data ++ (hex16 fp2.hash1.val).data := by
    repeat rw [List.append_assoc] at hdata
    exact List.append_cancel_left (List.append_cancel_left (List.append_cancel_left
      (List.append_cancel_left (List.append_cancel_left (List.append_cancel_left
        (List.append_cancel_left hdata))))))
  have hlen : (hex16 fp1.hash0.val).data.length = (hex16 fp2.hash0.val).data.length := by
    show (hexFixed 16 fp1.hash0.val).length = (hexFixed 16 fp2.hash0.val).length
    rw [hexFixed_length, hexFixed_length]
  obtain ⟨h0, h1⟩ := List.append_inj hdata2 hlen
  have hb1 : fp1.hash0.val < 16 ^ 16 := by rw [pow_16_16_eq]; exact fp1.hash0.isLt
  have hb2 : fp2.hash0.val < 16 ^ 16 := by rw [pow_16_16_eq]; exact fp2.hash0.isLt
  have hb3 : fp1.hash1.val < 16 ^ 16 := by rw [pow_16_16_eq]; exact fp1.hash1.isLt
  have hb4 : fp2.hash1.val < 16 ^ 16 := by rw [pow_16_16_eq]; exact fp2.hash1.isLt
  have e0 : fp1.hash0.val = fp2.hash0.val := hexFixed_inj _ _ hb1 hb2 h0
  have e1 : fp1.hash1.val = fp2.hash1.val := hexFixed_inj _ _ hb3 hb4 h1
  obtain ⟨a1, b1⟩ := fp1
  obtain ⟨a2, b2⟩ := fp2
  exact congrArg₂ UmashFp.mk (Fin.ext e0) (Fin.ext e1)

/-- C6 counterexample: the expression string actually fingerprinted by
`create_index` carries a leading `"\n  "` before the first component,
so it differs from the join of the substituted components with
`",\n  "` that the claim describes, already for the single component
list `["a"]`; the name's hex digits are therefore the fingerprint
halves of a different string than the claim states. -/
theorem index_expr_counterexample :
    index_expr [] ["a"] = "\n  a" ∧ index_expr_claimed [] ["a"] = "a" ∧
    index_expr [] ["a"] ≠ index_expr_claimed [] ["a"] := by
  refine ⟨rfl, rfl, by decide⟩

/-- C6 (amended): the generated index name equals
`proto_` + (`auto` when auto, else nothing) + `index__` + table +
`__` + suffix + `__` + the two zero-padded 16-digit lowercase hex
halves of the keyed umash fingerprint of the index-expression string,
where that string prefixes each column-substituted component with
`"\n  "` for the first and `",\n  "` for the rest; two indexes with
the same table, suffix, auto-flag, and expression string get the
identical name, and two expression strings with distinct fingerprints
always produce distinct names. -/
theorem index_name_characterization (fpr : String → UmashFp) (table_name : String)
    (columns columns2 : List ViewColumn) (idx idx2 : ProtoIndex) (auto : Bool)
    (e1 e2 : String) (hfp : fpr e1 ≠ fpr e2) :
    (create_index_name fpr table_name columns idx auto =
      "proto_" ++ (if auto then "auto" else "") ++ "index__" ++ table_name ++ "__" ++
        idx.name_suffix ++ "__" ++
        String.mk (hexFixed 16 (fpr (index_expr columns idx.components)).hash0.val) ++
        String.mk (hexFixed 16 (fpr (index_expr columns idx.components)).hash1.val)) ∧
    (idx.name_suffix = idx2.name_suffix →
      index_expr columns idx.components = index_expr columns2 idx2.components →
      create_index_name fpr table_name columns idx auto =
        create_index_name fpr table_name columns2 idx2 auto) ∧
    (index_name_string auto table_name idx.name_suffix (fpr e1) ≠
      index_name_string auto table_name idx.name_suffix (fpr e2)) := by
  refine ⟨rfl, ?_, index_name_string_fp_inj auto table_name idx.name_suffix _ _ hfp⟩
  intro h1 h2
  unfold create_index_name
  rw [h1, h2]

/-- Fixture fingerprint for witnesses: the string length in the first
word, zero in the second. -/
def wLenFp (s : String) : UmashFp :=
  ⟨⟨s.length % 2 ^ 64, Nat.mod_lt _ (by norm_num)⟩, ⟨0, by norm_num⟩⟩

theorem index_name_characterization_witness :
    index_name_string false "T" "s" (wLenFp "a") ≠
      index_name_string false "T" "s" (wLenFp "ab") := by
  have h := index_name_characterization wLenFp "T" [] [] ⟨"s", ["a"]⟩ ⟨"s", ["a"]⟩ false
      "a" "ab" (by decide)
  exact h.2.2

/-- The counter block of `struct proto_db`: `write_count` and
`batch_size` are `uint32_t`, the two depths are `size_t`.  The sqlite
handle itself is abstracted away; the outcome of each `sqlite3_exec`
call is an explicit oracle argument. -/
structure ProtoDbState : Type where
  write_count : Nat
  batch_size : Nat
  transaction_depth : Nat
  autocommit_depth : Nat
deriving DecidableEq, Repr

theorem ProtoDbState_wc_mk (a b c d : Nat) : (ProtoDbState.mk a b c d).write_count = a := rfl

theorem ProtoDbState_bs_mk (a b c d : Nat) : (ProtoDbState.mk a b c d).batch_size = b := rfl

theorem ProtoDbState_td_mk (a b c d : Nat) : (ProtoDbState.mk a b c d).transaction_depth = c := rfl

theorem ProtoDbState_ad_mk (a b c d : Nat) : (ProtoDbState.mk a b c d).autocommit_depth = d := rfl

/-- Outcome of one batcher operation: a normal return with the new
counter state, the returned sqlite result code (`true` = `SQLITE_OK`),
and the SQL statements executed against the engine, in order — or a
crash (a failed `assert` or an `abort()`). -/
inductive DbOutcome : Type where
  | ok (s : ProtoDbState) (rc : Bool) (stmts : List String)
  | crash
deriving DecidableEq, Repr

/-- `AUTOCOMMIT_BATCH_SIZE` (proto_table.c). -/
def AUTOCOMMIT_BATCH_SIZE : Nat := 20000

/-- The effective batch size `db->batch_size ?: AUTOCOMMIT_BATCH_SIZE`
of `proto_db_count_writes`. -/
def effective_batch (s : ProtoDbState) : Nat :=
  if s.batch_size = 0 then AUTOCOMMIT_BATCH_SIZE else s.batch_size

/-- Embedding of `proto_db_count_writes` (proto_table.c lines
656-694).  `execOk` is the outcome the engine would give the
commit-and-reopen statement. -/
def proto_db_count_writes (s : ProtoDbState) (n : Nat) (execOk : Bool) : DbOutcome :=
  if s.transaction_depth = 0 then DbOutcome.ok s true []
  else if s.write_count < effective_batch s ∧ n < effective_batch s - s.write_count then
    DbOutcome.ok { s with write_count := (s.write_count + n) % 2 ^ 32 } true []
  else if s.autocommit_depth < s.transaction_depth then
    DbOutcome.ok { s with write_count := effective_batch s } true []
  else if execOk then
    DbOutcome.ok { s with write_count := 0 } true
      ["COMMIT TRANSACTION; BEGIN IMMEDIATE TRANSACTION;"]
  else DbOutcome.crash

/-- Embedding of `proto_db_transaction_begin` (lines 590-610): the
depth is bumped first; only a `0 → 1` transition talks to the engine,
and on engine failure the depth is restored and the engine's error
returned. -/
def proto_db_transaction_begin (s : ProtoDbState) (execOk : Bool) : DbOutcome :=
  if s.transaction_depth > 0 then
    if (s.transaction_depth + 1) % 2 ^ 64 > 0 then
      DbOutcome.ok { s with transaction_depth := (s.transaction_depth + 1) % 2 ^ 64 } true []
    else DbOutcome.crash
  else if execOk then
    DbOutcome.ok { s with transaction_depth := 1 } true ["BEGIN IMMEDIATE TRANSACTION;"]
  else
    DbOutcome.ok s false ["BEGIN IMMEDIATE TRANSACTION;"]

/-- Embedding of `proto_db_transaction_end` (lines 612-635): asserts
an open transaction, decrements, gives the batcher a cycle
opportunity while still nested, and commits (aborting on commit
failure) when the last frame closes. -/
def proto_db_transaction_end (s : ProtoDbState) (execOk : Bool) : DbOutcome :=
  if s.transaction_depth = 0 then DbOutcome.crash
  else if s.transaction_depth - 1 > 0 then
    proto_db_count_writes { s with transaction_depth := s.transaction_depth - 1 } 0 execOk
  else if execOk then
    DbOutcome.ok { s with transaction_depth := 0, write_count := 0 } true
      ["COMMIT TRANSACTION;"]
  else DbOutcome.crash

/-- Embedding of `proto_db_batch_begin` (lines 637-644). -/
def proto_db_batch_begin (s : ProtoDbState) (execOk : Bool) : DbOutcome :=
  if (s.autocommit_depth + 1) % 2 ^ 64 > 0 then
    proto_db_transaction_begin { s with autocommit_depth := (s.autocommit_depth + 1) % 2 ^ 64 }
      execOk
  else DbOutcome.crash

/-- Embedding of `proto_db_batch_end` (lines 646-654). -/
def proto_db_batch_end (s : ProtoDbState) (execOk : Bool) : DbOutcome :=
  match proto_db_transaction_end s execOk with
  | DbOutcome.crash => DbOutcome.crash
  | DbOutcome.ok s1 _ stmts =>
    if s1.autocommit_depth > 0 then
      DbOutcome.ok { s1 with autocommit_depth := s1.autocommit_depth - 1 } true stmts
    else DbOutcome.crash

/-- The claimed `proto_db` counter invariant
`0 ≤ autocommit_depth ≤ transaction_depth` (the lower bound is
inherent to `Nat`). -/
def dbInv (s : ProtoDbState) : Prop :=
  s.autocommit_depth ≤ s.transaction_depth

/-- Machine representability of the counter block: `uint32_t` and
`size_t` field ranges. -/
def dbWf (s : ProtoDbState) : Prop :=
  s.write_count < 2 ^ 32 ∧ s.batch_size < 2 ^ 32 ∧
    s.transaction_depth < 2 ^ 64 ∧ s.autocommit_depth < 2 ^ 64

theorem count_writes_depths (s : ProtoDbState) (n : Nat) (e : Bool) (s1 : ProtoDbState)
    (rc : Bool) (st : List String)
    (h : proto_db_count_writes s n e = DbOutcome.ok s1 rc st) :
    s1.transaction_depth = s.transaction_depth ∧
      s1.autocommit_depth = s.autocommit_depth := by
  unfold proto_db_count_writes at h
  split at h
  · simp only [DbOutcome.ok.injEq] at h
    obtain ⟨rfl, -, -⟩ := h
    exact ⟨rfl, rfl⟩
  · split at h
    · simp only [DbOutcome.ok.injEq] at h
      obtain ⟨rfl, -, -⟩ := h
      exact ⟨rfl, rfl⟩
    · split at h
      · simp only [DbOutcome.ok.injEq] at h
        obtain ⟨rfl, -, -⟩ := h
        exact ⟨rfl, rfl⟩
      · split at h
        · simp only [DbOutcome.ok.injEq] at h
          obtain ⟨rfl, -, -⟩ := h
          exact ⟨rfl, rfl⟩
        · exact absurd h (by simp)

theorem tx_end_depths (s : ProtoDbState) (e : Bool) (s1 : ProtoDbState)
    (rc : Bool) (st : List String)
    (h : proto_db_transaction_end s e = DbOutcome.ok s1 rc st) :
    s1.transaction_depth = s.transaction_depth - 1 ∧
      s1.autocommit_depth = s.autocommit_depth ∧ 0 < s.transaction_depth := by
  unfold proto_db_transaction_end at h
  split at h
  · exact absurd h (by simp)
  · rename_i hd0
    split at h
    · rename_i hd1
      obtain ⟨h1, h2⟩ := count_writes_depths _ _ _ _ _ _ h
      exact ⟨h1, h2, by omega⟩
    · rename_i hd1
      split at h
      · simp only [DbOutcome.ok.injEq] at h
        obtain ⟨rfl, -, -⟩ := h
        exact ⟨show (0 : Nat) = s.transaction_depth - 1 by omega, rfl, by omega⟩
      · exact absurd h (by simp)

theorem tx_begin_char (s : ProtoDbState) (e : Bool) (s1 : ProtoDbState)
    (rc : Bool) (st : List String)
    (h : proto_db_transaction_begin s e = DbOutcome.ok s1 rc st) :
    s1.autocommit_depth = s.autocommit_depth ∧
    ((0 < s.transaction_depth ∧
        s1.transaction_depth = (s.transaction_depth + 1) % 2 ^ 64 ∧
        0 < (s.transaction_depth + 1) % 2 ^ 64) ∨
     (s.transaction_depth = 0 ∧ e = true ∧ s1.transaction_depth = 1) ∨
     (s.transaction_depth = 0 ∧ e = false ∧ s1.transaction_depth = 0)) := by
  unfold proto_db_transaction_begin at h
  split at h
  · rename_i hd
    split at h
    · rename_i hmod
      simp only [DbOutcome.ok.injEq] at h
      obtain ⟨rfl, -, -⟩ := h
      exact ⟨rfl, Or.inl ⟨hd, rfl, hmod⟩⟩
    · exact absurd h (by simp)
  · rename_i hd
    split at h
    · rename_i he
      simp only [DbOutcome.ok.injEq] at h
      obtain ⟨rfl, -, -⟩ := h
      exact ⟨rfl, Or.inr (Or.inl ⟨by omega, he, rfl⟩)⟩
    · rename_i he
      simp only [DbOutcome.ok.injEq] at h
      obtain ⟨rfl, -, -⟩ := h
      exact ⟨rfl, Or.inr (Or.inr ⟨by omega, by simpa using he, by omega⟩)⟩

/-- C7 counterexample: two operations violate the invariant
`autocommit_depth ≤ transaction_depth` even though it holds on entry.
A `proto_db_batch_begin` whose engine `BEGIN` fails rolls back only
the transaction depth and returns with `autocommit_depth = 1 >
transaction_depth = 0`; and a bare `proto_db_transaction_end` on a
state opened by `proto_db_batch_begin` (depths 1/1) commits and
leaves `autocommit_depth = 1 > transaction_depth = 0`. -/
theorem proto_db_invariant_counterexample :
    dbInv ⟨0, 0, 0, 0⟩ ∧
    proto_db_batch_begin ⟨0, 0, 0, 0⟩ false =
      DbOutcome.ok ⟨0, 0, 0, 1⟩ false ["BEGIN IMMEDIATE TRANSACTION;"] ∧
    ¬ dbInv ⟨0, 0, 0, 1⟩ ∧
    dbInv ⟨0, 1, 1, 1⟩ ∧
    proto_db_transaction_end ⟨0, 1, 1, 1⟩ true =
      DbOutcome.ok ⟨0, 1, 0, 1⟩ true ["COMMIT TRANSACTION;"] ∧
    ¬ dbInv ⟨0, 1, 0, 1⟩ := by
  refine ⟨?_, by decide, ?_, ?_, by decide, ?_⟩ <;> simp [dbInv]

/-- C7 (amended): on machine-representable states satisfying
`0 ≤ autocommit_depth ≤ transaction_depth` on entry,
`proto_db_transaction_begin`, `proto_db_count_writes` and
`proto_db_batch_end` preserve the invariant on every non-crashing
path including failure returns; `proto_db_transaction_end` preserves
it provided `autocommit_depth < transaction_depth` on entry; and
`proto_db_batch_begin` preserves it provided a transaction is already
open on entry or the engine `BEGIN` succeeds. -/
theorem proto_db_invariant_preservation (s s2 : ProtoDbState) (e : Bool) (n : Nat)
    (rc : Bool) (st : List String) (hwf : dbWf s) (h : dbInv s) :
    (proto_db_transaction_begin s e = DbOutcome.ok s2 rc st → dbInv s2) ∧
    (proto_db_count_writes s n e = DbOutcome.ok s2 rc st → dbInv s2) ∧
    (proto_db_batch_end s e = DbOutcome.ok s2 rc st → dbInv s2) ∧
    (s.autocommit_depth < s.transaction_depth →
      proto_db_transaction_end s e = DbOutcome.ok s2 rc st → dbInv s2) ∧
    ((0 < s.transaction_depth ∨ e = true) →
      proto_db_batch_begin s e = DbOutcome.ok s2 rc st → dbInv s2) := by
  obtain ⟨hw32, hb32, hd64, ha64⟩ := hwf
  have h64 : (2 : Nat) ^ 64 = 18446744073709551616 := by norm_num
  refine ⟨?_, ?_, ?_, ?_, ?_⟩
  · intro hop
    obtain ⟨hac, hcases⟩ := tx_begin_char _ _ _ _ _ hop
    simp only [dbInv] at h ⊢
    rw [hac]
    rcases hcases with ⟨hd, hset, hmod⟩ | ⟨hd, -, hset⟩ | ⟨hd, -, hset⟩
    · rw [hset]
      rw [h64] at hmod hd64 ⊢
      omega
    · rw [hset]; omega
    · rw [hset]; omega
  · intro hop
    obtain ⟨h1, h2⟩ := count_writes_depths _ _ _ _ _ _ hop
    simp only [dbInv] at h ⊢
    omega
  · intro hop
    unfold proto_db_batch_end at hop
    cases htx : proto_db_transaction_end s e with
    | crash => rw [htx] at hop; exact absurd hop (by simp)
    | ok s1 rc1 st1 =>
      rw [htx] at hop
      obtain ⟨h1, h2, h3⟩ := tx_end_depths _ _ _ _ _ htx
      have hop2 : (if s1.autocommit_depth > 0 then
          DbOutcome.ok { s1 with autocommit_depth := s1.autocommit_depth - 1 } true st1
        else DbOutcome.crash) = DbOutcome.ok s2 rc st := hop
      split at hop2
      · simp only [DbOutcome.ok.injEq] at hop2
        obtain ⟨rfl, -, -⟩ := hop2
        simp only [dbInv] at h ⊢
        show s1.autocommit_depth - 1 ≤ s1.transaction_depth
        omega
      · exact absurd hop2 (by simp)
  · intro hlt hop
    obtain ⟨h1, h2, h3⟩ := tx_end_depths _ _ _ _ _ hop
    simp only [dbInv] at h ⊢
    omega
  · intro hpre hop
    unfold proto_db_batch_begin at hop
    split at hop
    · rename_i hmod
      obtain ⟨hac, hcases⟩ := tx_begin_char _ _ _ _ _ hop
      simp only [dbInv] at h ⊢
      simp only [ProtoDbState_td_mk, ProtoDbState_ad_mk] at hac hcases hmod
      rw [hac]
      rw [h64] at hmod ha64 hd64
      rcases hcases with ⟨hd, hset, hmod2⟩ | ⟨hd, -, hset⟩ | ⟨hd, he, hset⟩
      · rw [hset]
        rw [h64] at hmod2 ⊢
        omega
      · rw [hset]
        rw [h64]
        omega
      · rcases hpre with hp | hp
        · omega
        · rw [hp] at he
          exact absurd he (by simp)
    · exact absurd hop (by simp)

theorem proto_db_invariant_preservation_witness : dbInv ⟨0, 0, 2, 1⟩ := by
  have h := proto_db_invariant_preservation ⟨0, 0, 1, 1⟩ ⟨0, 0, 2, 1⟩ true 0 true []
      (by simp [dbWf]) (by simp [dbInv])
  exact h.1 (by decide)

/-- Test driver for batch cycling: feed `m` single-write
notifications to `proto_db_count_writes` with an always-successful
engine, collecting the issued statements in order. -/
def iterate_count_writes (s : ProtoDbState) : Nat → ProtoDbState × List String
  | 0 => (s, [])
  | m + 1 =>
    match proto_db_count_writes s 1 true with
    | DbOutcome.ok s1 _ st =>
      let r := iterate_count_writes s1 m
      (r.1, st ++ r.2)
    | DbOutcome.crash => (s, [])

theorem iterate_count_writes_succ_snd (s : ProtoDbState) (m : Nat) (s1 : ProtoDbState)
    (rc : Bool) (st : List String)
    (h : proto_db_count_writes s 1 true = DbOutcome.ok s1 rc st) :
    (iterate_count_writes s (m + 1)).2 = st ++ (iterate_count_writes s1 m).2 := by
  simp [iterate_count_writes, h]

theorem count_writes_one_frame_step (B wc : Nat) (hB : 1 ≤ B) (hB32 : B < 2 ^ 32)
    (hwc : wc < B) :
    proto_db_count_writes ⟨wc, B, 1, 1⟩ 1 true =
      (if wc + 2 ≤ B then DbOutcome.ok ⟨wc + 1, B, 1, 1⟩ true []
       else DbOutcome.ok ⟨0, B, 1, 1⟩ true
         ["COMMIT TRANSACTION; BEGIN IMMEDIATE TRANSACTION;"]) := by
  have hbe : effective_batch ⟨wc, B, 1, 1⟩ = B := by
    unfold effective_batch
    simp only [ProtoDbState_bs_mk]
    rw [if_neg (by omega : ¬B = 0)]
  unfold proto_db_count_writes
  rw [hbe]
  simp only [ProtoDbState_wc_mk, ProtoDbState_td_mk, ProtoDbState_ad_mk]
  by_cases hc : wc + 2 ≤ B
  · rw [if_pos hc]
    rw [if_neg (by omega)]
    rw [if_pos (by omega : wc < B ∧ 1 < B - wc)]
    have hm : (wc + 1) % 2 ^ 32 = wc + 1 := Nat.mod_eq_of_lt (by omega)
    rw [hm]
  · rw [if_neg hc]
    rw [if_neg (by omega)]
    rw [if_neg (by omega : ¬(wc < B ∧ 1 < B - wc))]
    rw [if_neg (by omega : ¬((1 : Nat) < 1))]
    simp

theorem iterate_cw_one_frame (B : Nat) (hB : 1 ≤ B) (hB32 : B < 2 ^ 32) :
    ∀ (m wc : Nat), wc < B →
      (iterate_count_writes ⟨wc, B, 1, 1⟩ m).2 =
        List.replicate ((wc + m) / B) "COMMIT TRANSACTION; BEGIN IMMEDIATE TRANSACTION;" := by
  intro m
  induction m with
  | zero =>
    intro wc hwc
    simp [iterate_count_writes, Nat.div_eq_of_lt hwc]
  | succ m ih =>
    intro wc hwc
    by_cases hc : wc + 2 ≤ B
    · rw [iterate_count_writes_succ_snd _ m _ _ _
        (by rw [count_writes_one_frame_step B wc hB hB32 hwc, if_pos hc])]
      rw [List.nil_append]
      rw [ih (wc + 1) (by omega)]
      have hadd : wc + 1 + m = wc + (m + 1) := by omega
      rw [hadd]
    · rw [iterate_count_writes_succ_snd _ m _ _ _
        (by rw [count_writes_one_frame_step B wc hB hB32 hwc, if_neg hc])]
      rw [ih 0 (by omega)]
      rw [Nat.zero_add]
      have h1 : wc + (m + 1) = m + B := by omega
      rw [h1, Nat.add_div_right m (by omega)]
      rw [List.replicate_succ]
      rfl

theorem count_writes_nested_step (B wc : Nat) (hB : 1 ≤ B) (hB32 : B < 2 ^ 32)
    (hwc : wc ≤ B) :
    proto_db_count_writes ⟨wc, B, 2, 1⟩ 1 true =
      (if wc + 2 ≤ B then DbOutcome.ok ⟨wc + 1, B, 2, 1⟩ true []
       else DbOutcome.ok ⟨B, B, 2, 1⟩ true []) := by
  have hbe : effective_batch ⟨wc, B, 2, 1⟩ = B := by
    unfold effective_batch
    simp only [ProtoDbState_bs_mk]
    rw [if_neg (by omega : ¬B = 0)]
  unfold proto_db_count_writes
  rw [hbe]
  simp only [ProtoDbState_wc_mk, ProtoDbState_td_mk, ProtoDbState_ad_mk]
  by_cases hc : wc + 2 ≤ B
  · rw [if_pos hc]
    rw [if_neg (by omega)]
    rw [if_pos (by omega : wc < B ∧ 1 < B - wc)]
    have hm : (wc + 1) % 2 ^ 32 = wc + 1 := Nat.mod_eq_of_lt (by omega)
    rw [hm]
  · rw [if_neg hc]
    rw [if_neg (by omega)]
    rw [if_neg (by omega : ¬(wc < B ∧ 1 < B - wc))]
    rw [if_pos (by omega : (1 : Nat) < 2)]

theorem iterate_cw_nested (B : Nat) (hB : 1 ≤ B) (hB32 : B < 2 ^ 32) :
    ∀ (m wc : Nat), wc ≤ B → (iterate_count_writes ⟨wc, B, 2, 1⟩ m).2 = [] := by
  intro m
  induction m with
  | zero =>
    intro wc hwc
    simp [iterate_count_writes]
  | succ m ih =>
    intro wc hwc
    by_cases hc : wc + 2 ≤ B
    · rw [iterate_count_writes_succ_snd _ m _ _ _
        (by rw [count_writes_nested_step B wc hB hB32 hwc, if_pos hc])]
      rw [List.nil_append]
      exact ih (wc + 1) (by omega)
    · rw [iterate_count_writes_succ_snd _ m _ _ _
        (by rw [count_writes_nested_step B wc hB hB32 hwc, if_neg hc])]
      rw [List.nil_append]
      exact ih B (by omega)

/-- C8: starting with `batch_size = B ≥ 1`, `write_count = 0` and one
open batch frame (`transaction_depth = autocommit_depth = 1`), a run
of `k·B + r` single-write notifications (`r < B`) issues exactly `k`
commit cycles, each the single statement
`COMMIT TRANSACTION; BEGIN IMMEDIATE TRANSACTION;`; with an
additional non-autocommit frame open (`transaction_depth = 2`,
`autocommit_depth = 1`) the same run issues none. -/
theorem batch_cycling (B k r : Nat) (hB : 1 ≤ B) (hB32 : B < 2 ^ 32) (hr : r < B) :
    (iterate_count_writes ⟨0, B, 1, 1⟩ (k * B + r)).2 =
      List.replicate k "COMMIT TRANSACTION; BEGIN IMMEDIATE TRANSACTION;" ∧
    (iterate_count_writes ⟨0, B, 2, 1⟩ (k * B + r)).2 = [] := by
  constructor
  · rw [iterate_cw_one_frame B hB hB32 (k * B + r) 0 (by omega)]
    congr 1
    rw [Nat.zero_add, Nat.add_comm]
    rw [Nat.add_mul_div_right r k (by omega : 0 < B)]
    rw [Nat.div_eq_of_lt hr]
    omega
  · exact iterate_cw_nested B hB hB32 (k * B + r) 0 (by omega)

theorem batch_cycling_witness :
    (iterate_count_writes ⟨0, 2, 1, 1⟩ (2 * 2 + 1)).2 =
      List.replicate 2 "COMMIT TRANSACTION; BEGIN IMMEDIATE TRANSACTION;" ∧
    (iterate_count_writes ⟨0, 2, 2, 1⟩ (2 * 2 + 1)).2 = [] := by
  have h := batch_cycling 2 2 1 (by omega) (by norm_num) (by omega)
  exact h

/-- The per-thread cache of utilities.cpp (`struct cache`, the
generation-counter variant): message type name, resolved prototype,
cached encoded bytes, cached parsed instance, high-water mark of
parsed payload sizes, and the saved generation token. -/
structure MsgCache : Type where
  message_name : String
  prototype : Option Prototype
  message_data : List Nat
  message : Option PbMessage
  max_message_data_size : Nat
  prototype_generation : Nat

/-- Embedding of `invalidate_message_cache` (utilities.cpp lines
83-89). -/
def invalidate_message_cache (c : MsgCache) : MsgCache :=
  { c with message_data := [], message := none, max_message_data_size := 0 }

/-- Embedding of `invalidate_prototype_cache` (lines 91-98). -/
def invalidate_prototype_cache (globalGen : Nat) (c : MsgCache) : MsgCache :=
  invalidate_message_cache
    { c with message_name := "", prototype := none, prototype_generation := globalGen }

/-- Result of a `get_prototype` call: the updated cache, the returned
prototype, and the error signalled on the SQL result channel, if
any. -/
structure GetProtoOut : Type where
  cache : MsgCache
  result : Option Prototype
  err : Option String

/-- Embedding of `get_prototype` (utilities.cpp lines 107-134):
`registry` models the generated descriptor pool plus message factory
and `globalGen` the value the atomic generation counter yields during
this call. -/
def get_prototype (registry : String → Option Prototype) (globalGen : Nat)
    (c : MsgCache) (message_name : String) : GetProtoOut :=
  if globalGen ≠ c.prototype_generation ∨ c.prototype.isNone = true ∨
      c.message_name ≠ message_name then
    match registry message_name with
    | some p =>
      { cache :=
          invalidate_message_cache
            { c with
              message_name := message_name,
              prototype := some p,
              prototype_generation := globalGen },
        result := some p,
        err := none }
    | none =>
      { cache := invalidate_prototype_cache globalGen { c with message_name := message_name },
        result := none,
        err := some "Could not find message descriptor" }
  else { cache := c, result := c.prototype, err := none }

/-- Which allocation path a `parse_message` call took: returning the
cached parsed instance, clearing and reusing the existing instance,
or allocating a fresh instance from the prototype. -/
inductive ParseEvent : Type where
  | cacheHit | reusedCleared | freshInstance
deriving DecidableEq, Repr

/-- Result of a `parse_message` call. -/
structure ParseMsgOut : Type where
  cache : MsgCache
  result : Option PbMessage
  err : Option String
  event : Option ParseEvent

/-- `MIN_MESSAGE_DATA_REUSE_SIZE` (utilities.cpp line 53). -/
def MIN_MESSAGE_DATA_REUSE_SIZE : Nat := 256

/-- Embedding of the cache-miss path of `parse_message`
(utilities.cpp lines 153-175): store the new bytes; clear and reuse
the existing instance when `max(size, MIN_MESSAGE_DATA_REUSE_SIZE)`
is at least half the high-water mark, else allocate fresh and reset
the mark; raise the mark to include the new size; parse; on failure
signal the error and invalidate the message cache. -/
def parse_message_miss (prototype : Prototype) (c : MsgCache)
    (message_data : List Nat) : ParseMsgOut :=
  if c.message.isSome = true ∧
      max message_data.length MIN_MESSAGE_DATA_REUSE_SIZE ≥ c.max_message_data_size / 2 then
    match prototype.parse message_data with
    | some m =>
      { cache :=
          { c with
            message_data := message_data,
            message := some m,
            max_message_data_size := max c.max_message_data_size message_data.length },
        result := some m,
        err := none,
        event := some ParseEvent.reusedCleared }
    | none =>
      { cache :=
          invalidate_message_cache
            { c with
              message_data := message_data,
              max_message_data_size := max c.max_message_data_size message_data.length },
        result := none,
        err := some "Failed to parse message",
        event := some ParseEvent.reusedCleared }
  else
    match prototype.parse message_data with
    | some m =>
      { cache :=
          { c with
            message_data := message_data,
            message := some m,
            max_message_data_size := message_data.length },
        result := some m,
        err := none,
        event := some ParseEvent.freshInstance }
    | none =>
      { cache :=
          invalidate_message_cache
            { c with
              message_data := message_data,
              max_message_data_size := message_data.length },
        result := none,
        err := some "Failed to parse message",
        event := some ParseEvent.freshInstance }

/-- Embedding of `string_equal_to_sqlite3_value` (utilities.cpp lines
22-35) applied to the request value's bytes: the sizes must match,
the value's blob pointer must be non-null — `sqlite3_value_blob`
returns a null pointer for every zero-length value, so an empty
request never compares equal (`if (!text) return false;`) — and then
the bytes are compared with `memcmp`. -/
def string_equal_to_sqlite3_value (str : List Nat) (val : List Nat) : Bool :=
  if val.length ≠ str.length then false
  else if val.isEmpty then false
  else val == str

theorem string_equal_to_sqlite3_value_iff (str val : List Nat) :
    string_equal_to_sqlite3_value str val = true ↔ str = val ∧ val ≠ [] := by
  unfold string_equal_to_sqlite3_value
  split
  · rename_i hlen
    simp only [Bool.false_eq_true, false_iff]
    rintro ⟨rfl, -⟩
    exact hlen rfl
  · rename_i hlen
    split
    · rename_i hemp
      simp only [Bool.false_eq_true, false_iff]
      rintro ⟨rfl, hne⟩
      exact hne (List.isEmpty_iff.mp hemp)
    · rename_i hemp
      rw [beq_iff_eq]
      constructor
      · intro h
        refine ⟨h.symm, ?_⟩
        intro hnil
        exact hemp (by rw [hnil]; rfl)
      · rintro ⟨rfl, -⟩
        rfl

/-- Embedding of `parse_message` (utilities.cpp lines 136-176): look
up the prototype (updating the cache), return the cached parsed
instance when `string_equal_to_sqlite3_value` accepts the request
against the cached bytes, and otherwise run the miss path. -/
def parse_message (registry : String → Option Prototype) (globalGen : Nat)
    (c0 : MsgCache) (message_data : List Nat) (message_name : String) : ParseMsgOut :=
  let g := get_prototype registry globalGen c0 message_name
  match g.result with
  | none => { cache := g.cache, result := none, err := g.err, event := none }
  | some prototype =>
    if g.cache.message.isSome = true ∧
        string_equal_to_sqlite3_value g.cache.message_data message_data = true then
      { cache := g.cache, result := g.cache.message, err := none,
        event := some ParseEvent.cacheHit }
    else
      parse_message_miss prototype g.cache message_data

/-- Fixture empty message for the cache claims. -/
def wEmptyMsg : PbMessage := PbMessage.mk wEmptyDesc []

/-- Fixture prototype whose parser always yields the empty message. -/
def wTrivProto : Prototype := { descriptor := wEmptyDesc, parse := fun _ => some wEmptyMsg }

/-- Fixture registry resolving every name to `wTrivProto`. -/
def wRegistry : String → Option Prototype := fun _ => some wTrivProto

/-- Fixture cache: prototype resolved for `M` at generation 0, one
cached byte parsed, high-water mark 500. -/
def wCache500 : MsgCache :=
  { message_name := "M", prototype := some wTrivProto, message_data := [0],
    message := some wEmptyMsg, max_message_data_size := 500, prototype_generation := 0 }

/-- C9 counterexample: with high-water mark 500 and a new 10-byte
payload — less than half the mark, so the claim demands a fresh
instance — the code clamps the compared size to
`MIN_MESSAGE_DATA_REUSE_SIZE = 256` and reuses the cached instance
(256 ≥ 500/2 = 250). -/
theorem parse_message_reuse_counterexample :
    (parse_message wRegistry 0 wCache500 [1, 2, 3, 4, 5, 6, 7, 8, 9, 10] "M").event =
      some ParseEvent.reusedCleared ∧
    ¬((10 : Nat) ≥ 500 / 2) := by
  constructor
  · rfl
  · decide

/-- C9 (amended): after the prototype resolved, a byte-for-byte match
of the cached bytes against a non-empty request returns the cached
parsed instance with the cache untouched (an empty request never
hits: `sqlite3_value_blob` returns a null pointer for zero-length
values, which `string_equal_to_sqlite3_value` rejects); otherwise the
new bytes are stored and the existing parsed instance is reused
(after clearing) if and only if one is present and
`max(payload size, MIN_MESSAGE_DATA_REUSE_SIZE)` is at least half
(floored) the high-water mark — else a fresh instance is allocated —
the high-water mark is then updated to include the new payload size
and the bytes are parsed; on parse failure an error is signalled, the
parsed-message slot is cleared, and null is returned. -/
theorem parse_message_characterization (registry : String → Option Prototype)
    (globalGen : Nat) (c0 : MsgCache) (message_data : List Nat) (message_name : String)
    (prototype : Prototype) (cc : MsgCache)
    (hres : (get_prototype registry globalGen c0 message_name).result = some prototype)
    (hcc : (get_prototype registry globalGen c0 message_name).cache = cc) :
    (cc.message.isSome = true → cc.message_data = message_data → message_data ≠ [] →
      parse_message registry globalGen c0 message_data message_name =
        { cache := cc, result := cc.message, err := none,
          event := some ParseEvent.cacheHit }) ∧
    (¬(cc.message.isSome = true ∧ cc.message_data = message_data ∧ message_data ≠ []) →
      (((parse_message registry globalGen c0 message_data message_name).event =
          some ParseEvent.reusedCleared) ↔
        (cc.message.isSome = true ∧
          max message_data.length MIN_MESSAGE_DATA_REUSE_SIZE ≥
            cc.max_message_data_size / 2)) ∧
      (∀ m, prototype.parse message_data = some m →
        (parse_message registry globalGen c0 message_data message_name).result = some m ∧
        (parse_message registry globalGen c0 message_data message_name).cache.message =
          some m ∧
        (parse_message registry globalGen c0 message_data message_name).cache.message_data =
          message_data ∧
        (parse_message registry globalGen c0 message_data
            message_name).cache.max_message_data_size =
          (if cc.message.isSome = true ∧
              max message_data.length MIN_MESSAGE_DATA_REUSE_SIZE ≥
                cc.max_message_data_size / 2
           then max cc.max_message_data_size message_data.length
           else message_data.length)) ∧
      (prototype.parse message_data = none →
        (parse_message registry globalGen c0 message_data message_name).result = none ∧
        (parse_message registry globalGen c0 message_data message_name).cache.message =
          none ∧
        (parse_message registry globalGen c0 message_data message_name).err =
          some "Failed to parse message")) := by
  have hpm : parse_message registry globalGen c0 message_data message_name =
      (if cc.message.isSome = true ∧
          string_equal_to_sqlite3_value cc.message_data message_data = true then
        { cache := cc, result := cc.message, err := none,
          event := some ParseEvent.cacheHit }
      else parse_message_miss prototype cc message_data) := by
    unfold parse_message
    simp only [hres, hcc]
  constructor
  · intro h1 h2 h3
    rw [hpm,
      if_pos ⟨h1, (string_equal_to_sqlite3_value_iff _ _).mpr ⟨h2, h3⟩⟩]
  · intro hmiss
    have hmiss2 : ¬(cc.message.isSome = true ∧
        string_equal_to_sqlite3_value cc.message_data message_data = true) := by
      rintro ⟨ha, hb⟩
      obtain ⟨heq, hne⟩ := (string_equal_to_sqlite3_value_iff _ _).mp hb
      exact hmiss ⟨ha, heq, hne⟩
    rw [hpm, if_neg hmiss2]
    by_cases hr : cc.message.isSome = true ∧
        max message_data.length MIN_MESSAGE_DATA_REUSE_SIZE ≥ cc.max_message_data_size / 2
    · refine ⟨?_, ?_, ?_⟩
      · unfold parse_message_miss
        rw [if_pos hr]
        cases hp : prototype.parse message_data <;> simp [hr]
      · intro m hp
        unfold parse_message_miss
        rw [if_pos hr, hp]
        refine ⟨rfl, rfl, rfl, ?_⟩
        rw [if_pos hr]
      · intro hp
        unfold parse_message_miss
        rw [if_pos hr, hp]
        exact ⟨rfl, rfl, rfl⟩
    · refine ⟨?_, ?_, ?_⟩
      · unfold parse_message_miss
        rw [if_neg hr]
        cases hp : prototype.parse message_data <;>
          refine ⟨fun hev => ?_, fun hcond => absurd hcond hr⟩ <;> simp at hev
      · intro m hp
        unfold parse_message_miss
        rw [if_neg hr, hp]
        refine ⟨rfl, rfl, rfl, ?_⟩
        rw [if_neg hr]
      · intro hp
        unfold parse_message_miss
        rw [if_neg hr, hp]
        exact ⟨rfl, rfl, rfl⟩

theorem parse_message_characterization_witness :
    parse_message wRegistry 0 wCache500 [0] "M" =
      { cache := wCache500, result := wCache500.message, err := none,
        event := some ParseEvent.cacheHit } := by
  have h := parse_message_characterization wRegistry 0 wCache500 [0] "M" wTrivProto wCache500
      rfl rfl
  exact h.1 rfl rfl (by decide)
